import Mathlib

/-!
Verification of the Nguyen-Widrow weight-initialization rule
(src/src/mlpack/methods/ann/init_rules/nguyen_widrow_init.hpp).

Embedding choices:
* Weight matrices (arma::mat) are dynamically shaped: a record of the two
  dimension counts together with an entry function, normalized to 0 outside
  the stated bounds. Entries are real numbers (the idealization of double).
* The C++ expression `1 / n_rows` is a size_t division; division by zero is
  undefined behavior in C++, so the embedded division returns none there.
* `arma::norm(W)` (default p = 2) is embedded as the Euclidean norm
  sqrt of the sum of squared entries, matching the formula
  n = sqrt(sum of squared weights) in the class documentation; on the
  matrices used in every concrete scenario below (a single row, or a single
  nonzero entry) this coincides exactly with the arma matrix 2-norm.
* The uniform random filler lives in random_init.hpp, which is not part of
  the sources under verification; it is modelled from the spec, with the
  values it draws supplied as an explicit input function.
-/

namespace NguyenWidrow

/-- A dense real matrix with dynamic shape, the embedding of arma::mat.
Entries outside the stated shape are normalized to 0 by the constructors. -/
structure Mat where
  n_rows : ℕ
  n_cols : ℕ
  entry : ℕ → ℕ → ℝ

/-- Build an r-by-c matrix from an entry function (0 outside the shape). -/
def Mat.ofFun (r c : ℕ) (f : ℕ → ℕ → ℝ) : Mat :=
  ⟨r, c, fun i j => if i < r ∧ j < c then f i j else 0⟩

/-- Elementwise scalar multiplication, the embedding of `W *= a`. -/
def Mat.scale (a : ℝ) (W : Mat) : Mat :=
  ⟨W.n_rows, W.n_cols, fun i j => a * W.entry i j⟩

/-- Sum of the squared entries of the matrix. -/
noncomputable def frobSq (W : Mat) : ℝ :=
  ∑ i ∈ Finset.range W.n_rows, ∑ j ∈ Finset.range W.n_cols, (W.entry i j) ^ 2

/-- The whole-matrix Euclidean norm, the embedding of `arma::norm(W)`:
n = sqrt(sum of squared weights), as in the class documentation. -/
noncomputable def normW (W : Mat) : ℝ :=
  Real.sqrt (frobSq W)

/-- size_t division, as in the C++ expression `1 / n_rows`: division by
zero is undefined behavior, marked by `none`. -/
def sizeTDiv (a b : ℕ) : Option ℕ :=
  if b = 0 then none else some (a / b)

/-- The scale factor of line 77 of the source:
`double beta = 0.7 * std::pow(n_cols, 1 / n_rows);`.
The exponent `1 / n_rows` is computed in size_t arithmetic (truncating
integer division) before std::pow promotes its arguments to double. -/
noncomputable def betaCode (n_rows n_cols : ℕ) : Option ℝ :=
  (sizeTDiv 1 n_rows).map fun e => 0.7 * (n_cols : ℝ) ^ e

/-- The initializer object: it stores exactly the two const bounds. -/
structure NguyenWidrowInitialization where
  lowerBound : ℝ
  upperBound : ℝ

/-- The two-argument constructor: stores the bounds unvalidated. -/
def NguyenWidrowInitialization.create (lowerBound upperBound : ℝ) :
    NguyenWidrowInitialization :=
  ⟨lowerBound, upperBound⟩

/-- The C++ default arguments lowerBound = -0.5, upperBound = 0.5: the
constructor invoked with both arguments omitted. -/
def NguyenWidrowInitialization.createDefault : NguyenWidrowInitialization :=
  NguyenWidrowInitialization.create (-0.5) 0.5

/-- The collaborator object built on line 74 of the source. -/
structure RandomInitialization where
  lowerBound : ℝ
  upperBound : ℝ

/-- Modelled from the spec: `RandomInitialization::Initialize` lives in
random_init.hpp, which is not among the sources under verification. Per the
spec (section 4.1) it resizes the matrix to n_rows x n_cols and assigns each
entry an independent uniform draw from [lowerBound, upperBound]; the drawn
values are supplied here as the explicit input `fill`, so the result is the
n_rows-by-n_cols matrix holding those draws. -/
def RandomInitialization.Initialize (self : RandomInitialization)
    (n_rows n_cols : ℕ) (fill : ℕ → ℕ → ℝ) : Mat :=
  Mat.ofFun n_rows n_cols fill

/-- The embedding of `NguyenWidrowInitialization::Initialize` (lines 72-79):
build the random collaborator from the stored bounds, let it fill W, compute
beta with the size_t exponent, and rescale W in place by beta / norm(W).
`fill` supplies the values drawn by the random collaborator; the result is
`none` exactly when the undefined size_t division 1 / 0 is reached. -/
noncomputable def NguyenWidrowInitialization.Initialize
    (self : NguyenWidrowInitialization) (n_rows n_cols : ℕ)
    (fill : ℕ → ℕ → ℝ) : Option Mat :=
  let randomInit : RandomInitialization := ⟨self.lowerBound, self.upperBound⟩
  let W := randomInit.Initialize n_rows n_cols fill
  (betaCode n_rows n_cols).map fun beta => Mat.scale (beta / normW W) W

/-- The same call with the object state passed explicitly: the data members
lowerBound and upperBound are const and the body of Initialize contains no
write to them, so the post-call object state is the pre-call state; the
prior contents of the caller matrix W are discarded by the collaborator
resize. -/
noncomputable def NguyenWidrowInitialization.InitializeState
    (self : NguyenWidrowInitialization) (W : Mat) (n_rows n_cols : ℕ)
    (fill : ℕ → ℕ → ℝ) : Option (NguyenWidrowInitialization × Mat) :=
  (self.Initialize n_rows n_cols fill).map fun W1 => (self, W1)

/-- Failure taxonomy of the error-handling section of the spec. -/
inductive InitError where
  | InvalidDimension
  | DegenerateNorm
deriving DecidableEq

/-- Modelled from the spec: the failure-reporting routine the spec
(sections 4.2 and 7) describes. It rejects n_rows = 0 and zero-element
sizes with InvalidDimension before computing beta, detects a zero
post-fill norm before the division and reports DegenerateNorm, and
otherwise rescales with the exponent 1 / n_rows taken in real
arithmetic. It exists to be compared with the code; the code itself is
`NguyenWidrowInitialization.Initialize` above. -/
noncomputable def NguyenWidrowInitialization.InitializeChecked
    (self : NguyenWidrowInitialization) (n_rows n_cols : ℕ)
    (fill : ℕ → ℕ → ℝ) : Except InitError Mat :=
  if n_rows = 0 ∨ n_rows * n_cols = 0 then
    Except.error InitError.InvalidDimension
  else
    let randomInit : RandomInitialization := ⟨self.lowerBound, self.upperBound⟩
    let W := randomInit.Initialize n_rows n_cols fill
    if h : normW W = 0 then
      Except.error InitError.DegenerateNorm
    else
      Except.ok
        (Mat.scale (0.7 * (n_cols : ℝ) ^ ((1 : ℝ) / (n_rows : ℝ)) / normW W) W)

/- ### Helper lemmas (shared) -/

theorem frobSq_nonneg (W : Mat) : 0 ≤ frobSq W := by
  apply Finset.sum_nonneg
  intro i _
  apply Finset.sum_nonneg
  intro j _
  positivity

theorem normW_nonneg (W : Mat) : 0 ≤ normW W := Real.sqrt_nonneg _

theorem normW_scale (a : ℝ) (W : Mat) :
    normW (Mat.scale a W) = |a| * normW W := by
  unfold normW frobSq Mat.scale
  simp only [mul_pow, ← Finset.mul_sum]
  rw [Real.sqrt_mul (sq_nonneg a), Real.sqrt_sq_eq_abs]

theorem normW_rescale (b : ℝ) (hb : 0 ≤ b) (W : Mat) (h : normW W ≠ 0) :
    normW (Mat.scale (b / normW W) W) = b := by
  have hn : 0 < normW W := lt_of_le_of_ne (normW_nonneg W) (Ne.symm h)
  rw [normW_scale, abs_of_nonneg (div_nonneg hb hn.le), div_mul_cancel₀]
  exact h

theorem betaCode_pos (n_rows n_cols : ℕ) (h : n_rows ≠ 0) :
    betaCode n_rows n_cols = some (0.7 * (n_cols : ℝ) ^ (1 / n_rows)) := by
  unfold betaCode sizeTDiv
  simp [h]

/-- Norm of the rescaled output: whenever the size_t exponent succeeds with
value b, b is nonnegative and the post-fill norm is nonzero, the output
matrix exists and its whole-matrix norm is exactly b. -/
theorem initialize_norm (s : NguyenWidrowInitialization) (r c : ℕ)
    (fill : ℕ → ℕ → ℝ) (b : ℝ) (hb : betaCode r c = some b) (hb0 : 0 ≤ b)
    (h : normW (Mat.ofFun r c fill) ≠ 0) :
    (s.Initialize r c fill).map normW = some b := by
  unfold NguyenWidrowInitialization.Initialize RandomInitialization.Initialize
  rw [hb]
  simp [normW_rescale b hb0 _ h]

/-- An all-zero fill function (a degenerate draw of the random source). -/
def zfill : ℕ → ℕ → ℝ := fun _ _ => 0

/-- A fill whose only nonzero draw is a 1 at position (0, 0). -/
def e00 : ℕ → ℕ → ℝ := fun i j => if i = 0 ∧ j = 0 then 1 else 0

theorem frobSq_e00_3_2 : frobSq (Mat.ofFun 3 2 e00) = 1 := by
  simp [frobSq, Mat.ofFun, e00, Finset.sum_range_succ]

theorem normW_e00_3_2 : normW (Mat.ofFun 3 2 e00) = 1 := by
  rw [normW, frobSq_e00_3_2, Real.sqrt_one]

theorem normW_zfill (r c : ℕ) : normW (Mat.ofFun r c zfill) = 0 := by
  have h : frobSq (Mat.ofFun r c zfill) = 0 := by
    simp [frobSq, Mat.ofFun, zfill]
  rw [normW, h, Real.sqrt_zero]

/-- The cube of the real scale factor 2^(1/3) is 2. -/
theorem cube_root_two_cubed : ((2 : ℝ) ^ ((1 : ℝ) / 3)) ^ (3 : ℕ) = 2 := by
  rw [← Real.rpow_natCast ((2 : ℝ) ^ ((1 : ℝ) / 3)) 3,
    ← Real.rpow_mul (by norm_num : (0 : ℝ) ≤ 2)]
  norm_num

theorem cube_root_two_gt : (5 / 4 : ℝ) < (2 : ℝ) ^ ((1 : ℝ) / 3) := by
  have ht := cube_root_two_cubed
  have htpos : 0 < (2 : ℝ) ^ ((1 : ℝ) / 3) :=
    Real.rpow_pos_of_pos (by norm_num) _
  nlinarith [ht, htpos, sq_nonneg ((2 : ℝ) ^ ((1 : ℝ) / 3) - 5 / 4),
    sq_nonneg ((2 : ℝ) ^ ((1 : ℝ) / 3) + 5 / 4)]

/- ### Claims -/

/-- C1: the claim states beta = 0.7 * n_cols^(1/n_rows) with the exponent
evaluated in real arithmetic, so beta = 0.7 * 2^(1/3) at n_rows = 3,
n_cols = 2. The code evaluates 1 / n_rows in size_t arithmetic: at (3, 2)
the exponent truncates to 0 and the code computes beta = 0.7, which is not
0.7 * 2^(1/3). -/
theorem beta_at_3_2_truncates :
    betaCode 3 2 = some 0.7 ∧ (0.7 : ℝ) ≠ 0.7 * (2 : ℝ) ^ ((1 : ℝ) / 3) := by
  constructor
  · unfold betaCode sizeTDiv
    norm_num
  · have h1 : (1 : ℝ) < (2 : ℝ) ^ ((1 : ℝ) / 3) := by
      rw [Real.one_lt_rpow_iff_of_pos (by norm_num)]
      norm_num
    intro h
    nlinarith

/-- C2: the claim states that after a successful call with nonzero
pre-rescale norm the whole-matrix norm of W equals 0.7 * n_cols^(1/n_rows)
with a real exponent. At n_rows = 3, n_cols = 2 with a fill of norm 1 the
code rescales W to norm 0.7, while the claimed value 0.7 * 2^(1/3) exceeds
7/8 = 0.875, far beyond any rounding tolerance. -/
theorem norm_law_fails_at_3_2 :
    (NguyenWidrowInitialization.createDefault.Initialize 3 2 e00).map normW =
      some 0.7 ∧
    (0.7 : ℝ) < 7 / 8 ∧ (7 / 8 : ℝ) < 0.7 * (2 : ℝ) ^ ((1 : ℝ) / 3) := by
  refine ⟨?_, by norm_num, ?_⟩
  · apply initialize_norm _ 3 2 e00 0.7
    · unfold betaCode sizeTDiv
      norm_num
    · norm_num
    · rw [normW_e00_3_2]
      norm_num
  · nlinarith [cube_root_two_gt]

/-- C3 counterexample: the claim states that a zero post-fill norm is
detected before the division and reported as a DegenerateNorm failure. At
the concrete call with n_rows = 1, n_cols = 2 and an all-zero fill, the
code completes normally (returns a matrix, performing the division by the
zero norm), while the checked routine the spec describes reports
DegenerateNorm. -/
theorem degenerate_norm_not_reported :
    (NguyenWidrowInitialization.createDefault.Initialize 1 2 zfill).isSome =
      true ∧
    NguyenWidrowInitialization.createDefault.InitializeChecked 1 2 zfill =
      Except.error InitError.DegenerateNorm := by
  constructor
  · unfold NguyenWidrowInitialization.Initialize RandomInitialization.Initialize
    rw [betaCode_pos 1 2 (by norm_num)]
    rfl
  · unfold NguyenWidrowInitialization.InitializeChecked
      RandomInitialization.Initialize
    rw [if_neg (by norm_num), dif_pos (normW_zfill 1 2)]

/-- C3 amended: the routine performs no zero-norm detection. For every call
with n_rows > 0, including every call whose post-fill norm is zero, it
unconditionally divides beta by the norm and completes normally with the
rescaled matrix; no DegenerateNorm failure is reported. -/
theorem no_degenerate_norm_check (s : NguyenWidrowInitialization) (r c : ℕ)
    (fill : ℕ → ℕ → ℝ) (hr : r ≠ 0) (h0 : normW (Mat.ofFun r c fill) = 0) :
    s.Initialize r c fill =
      some (Mat.scale ((0.7 * (c : ℝ) ^ (1 / r)) / normW (Mat.ofFun r c fill))
        (Mat.ofFun r c fill)) := by
  unfold NguyenWidrowInitialization.Initialize RandomInitialization.Initialize
  rw [betaCode_pos r c hr]
  rfl

/-- C3 witness: the amended theorem applied at n_rows = 1, n_cols = 3 with
the all-zero fill. -/
theorem no_degenerate_norm_check_witness :
    normW (Mat.ofFun 1 3 zfill) = 0 ∧
    (NguyenWidrowInitialization.create 0 0).Initialize 1 3 zfill =
      some (Mat.scale ((0.7 * (3 : ℝ) ^ (1 / 1)) / normW (Mat.ofFun 1 3 zfill))
        (Mat.ofFun 1 3 zfill)) :=
  ⟨normW_zfill 1 3,
    no_degenerate_norm_check (NguyenWidrowInitialization.create 0 0) 1 3 zfill
      (by norm_num) (normW_zfill 1 3)⟩

/-- C4 counterexample: the claim states that n_rows = 0 is rejected with an
InvalidDimension failure before computing beta, so the division 1/n_rows is
never performed. At the concrete call with n_rows = 0, n_cols = 5 the code
reaches the size_t division 1/0 (undefined behavior, the none outcome);
no InvalidDimension failure is reported; the checked routine the spec
describes instead rejects the call. -/
theorem invalid_dimension_not_rejected :
    NguyenWidrowInitialization.createDefault.Initialize 0 5 zfill = none ∧
    sizeTDiv 1 0 = none ∧
    NguyenWidrowInitialization.createDefault.InitializeChecked 0 5 zfill =
      Except.error InitError.InvalidDimension := by
  refine ⟨rfl, rfl, ?_⟩
  unfold NguyenWidrowInitialization.InitializeChecked
  rw [if_pos (Or.inl rfl)]

/-- C4 amended: the routine performs no dimension validation. For n_rows = 0
the size_t division 1/n_rows is reached and is a division by zero
(undefined behavior, the none outcome), with no InvalidDimension report;
a zero-element request with n_rows > 0 (n_cols = 0) completes normally. -/
theorem no_dimension_check (s : NguyenWidrowInitialization) :
    (∀ c fill, s.Initialize 0 c fill = none) ∧
    (∀ r c fill, r ≠ 0 → (s.Initialize r c fill).isSome = true) := by
  constructor
  · intro c fill
    rfl
  · intro r c fill hr
    unfold NguyenWidrowInitialization.Initialize RandomInitialization.Initialize
    rw [betaCode_pos r c hr]
    rfl

/-- C4 witness: the zero-element branch of the amended theorem applied at
n_rows = 2, n_cols = 0. -/
theorem no_dimension_check_witness :
    (2 : ℕ) ≠ 0 ∧
    (NguyenWidrowInitialization.createDefault.Initialize 2 0 zfill).isSome =
      true :=
  ⟨by norm_num,
    (no_dimension_check NguyenWidrowInitialization.createDefault).2 2 0 zfill
      (by norm_num)⟩

/-- C5: for n_rows > 0 and n_cols > 0 the call succeeds and the resulting
matrix has exactly n_rows rows and n_cols columns (the random filler
collaborator, modelled from the spec, resizes W to the requested shape and
the elementwise rescale keeps it). -/
theorem shape_preservation (s : NguyenWidrowInitialization) (r c : ℕ)
    (fill : ℕ → ℕ → ℝ) (hr : 0 < r) (hc : 0 < c) :
    (s.Initialize r c fill).map Mat.n_rows = some r ∧
    (s.Initialize r c fill).map Mat.n_cols = some c := by
  unfold NguyenWidrowInitialization.Initialize RandomInitialization.Initialize
  rw [betaCode_pos r c hr.ne']
  exact ⟨rfl, rfl⟩

/-- C5 witness: the shape theorem applied at n_rows = 2, n_cols = 3. -/
theorem shape_preservation_witness :
    (0 : ℕ) < 2 ∧ (0 : ℕ) < 3 ∧
    ((NguyenWidrowInitialization.create 0 1).Initialize 2 3 e00).map
      Mat.n_rows = some 2 ∧
    ((NguyenWidrowInitialization.create 0 1).Initialize 2 3 e00).map
      Mat.n_cols = some 3 :=
  ⟨by norm_num, by norm_num,
    (shape_preservation (NguyenWidrowInitialization.create 0 1) 2 3 e00
      (by norm_num) (by norm_num)).1,
    (shape_preservation (NguyenWidrowInitialization.create 0 1) 2 3 e00
      (by norm_num) (by norm_num)).2⟩

/-- C6: for Initialize(W, 1, 5) on an initializer with bounds (-1, 1) and a
nonzero pre-rescale norm, the computed scale factor is 0.7 * 5 = 3.5 (for
n_rows = 1 the size_t exponent 1/1 = 1 agrees with real arithmetic) and the
whole-matrix norm of the result is 3.5. -/
theorem scenario2_norm (fill : ℕ → ℕ → ℝ)
    (h : normW (Mat.ofFun 1 5 fill) ≠ 0) :
    betaCode 1 5 = some 3.5 ∧
    ((NguyenWidrowInitialization.create (-1) 1).Initialize 1 5 fill).map
      normW = some 3.5 := by
  have hb : betaCode 1 5 = some 3.5 := by
    unfold betaCode sizeTDiv
    norm_num
  exact ⟨hb, initialize_norm _ 1 5 fill 3.5 hb (by norm_num) h⟩

/-- A 1-by-5 fill with draws 3, 4, 0, 0, 0 (so its norm is 5). -/
def fill34 : ℕ → ℕ → ℝ := fun _ j => if j = 0 then 3 else if j = 1 then 4 else 0

theorem normW_fill34 : normW (Mat.ofFun 1 5 fill34) = 5 := by
  have h : frobSq (Mat.ofFun 1 5 fill34) = 25 := by
    simp [frobSq, Mat.ofFun, fill34, Finset.sum_range_succ]
    norm_num
  rw [normW, h]
  rw [show (25 : ℝ) = 5 ^ 2 by norm_num, Real.sqrt_sq (by norm_num)]

/-- C6 witness: the scenario applied to the concrete fill 3, 4, 0, 0, 0,
whose pre-rescale norm is 5. -/
theorem scenario2_norm_witness :
    normW (Mat.ofFun 1 5 fill34) ≠ 0 ∧
    betaCode 1 5 = some 3.5 ∧
    ((NguyenWidrowInitialization.create (-1) 1).Initialize 1 5 fill34).map
      normW = some 3.5 :=
  ⟨by rw [normW_fill34]; norm_num,
    scenario2_norm fill34 (by rw [normW_fill34]; norm_num)⟩

/-- C7: construction stores any pair of bounds unvalidated (in particular a
pair with lowerBound > upperBound, such as (1, 0)), and the constructor
with both arguments omitted stores the defaults -0.5 and 0.5. -/
theorem construction_stores_bounds :
    (∀ lb ub : ℝ, (NguyenWidrowInitialization.create lb ub).lowerBound = lb ∧
      (NguyenWidrowInitialization.create lb ub).upperBound = ub) ∧
    (NguyenWidrowInitialization.create 1 0).lowerBound = 1 ∧
    (NguyenWidrowInitialization.create 1 0).upperBound = 0 ∧
    NguyenWidrowInitialization.createDefault.lowerBound = -0.5 ∧
    NguyenWidrowInitialization.createDefault.upperBound = 0.5 :=
  ⟨fun lb ub => ⟨rfl, rfl⟩, rfl, rfl, rfl, rfl⟩

/-- C8: on every successful call the post-call initializer state equals the
pre-call state (the stored bounds are not mutated; only the caller matrix
changes), and an initializer value is determined by its two bounds alone,
so no other state persists between calls. -/
theorem initialize_frame (s : NguyenWidrowInitialization) (W : Mat)
    (r c : ℕ) (fill : ℕ → ℕ → ℝ) (p : NguyenWidrowInitialization × Mat)
    (h : s.InitializeState W r c fill = some p) :
    (p.1 = s ∧ p.1.lowerBound = s.lowerBound ∧
      p.1.upperBound = s.upperBound) ∧
    (∀ t : NguyenWidrowInitialization,
      t = NguyenWidrowInitialization.mk t.lowerBound t.upperBound) := by
  refine ⟨?_, fun t => rfl⟩
  unfold NguyenWidrowInitialization.InitializeState at h
  cases hI : s.Initialize r c fill with
  | none =>
    rw [hI] at h
    exact Option.noConfusion h
  | some W1 =>
    rw [hI] at h
    have h2 : some (s, W1) = some p := h
    rw [← Option.some.inj h2]
    exact ⟨rfl, rfl, rfl⟩

/-- The state pair produced by the concrete call of the C8 witness. -/
noncomputable def stateExample : NguyenWidrowInitialization × Mat :=
  (NguyenWidrowInitialization.create 2 3,
    Mat.scale ((0.7 * ((1 : ℕ) : ℝ) ^ (1 / 1)) / normW (Mat.ofFun 1 1 zfill))
      (Mat.ofFun 1 1 zfill))

/-- C8 witness: the frame theorem applied at a concrete call with bounds
(2, 3), for which the post-call state is stateExample. -/
theorem initialize_frame_witness :
    stateExample.1 = NguyenWidrowInitialization.create 2 3 ∧
    stateExample.1.lowerBound = 2 ∧ stateExample.1.upperBound = 3 :=
  (initialize_frame (NguyenWidrowInitialization.create 2 3)
    (Mat.ofFun 0 0 zfill) 1 1 zfill stateExample rfl).1

/-- C9: for every n_rows greater than or equal to 2 the scale factor the
code computes is exactly 0.7, whatever n_cols is, because the size_t
exponent 1/n_rows truncates to 0 and the power term is 1. -/
theorem beta_const_for_fan_in_ge_two (n_rows n_cols : ℕ) (h : 2 ≤ n_rows) :
    betaCode n_rows n_cols = some 0.7 := by
  have h0 : 1 / n_rows = 0 := Nat.div_eq_of_lt (by omega)
  rw [betaCode_pos n_rows n_cols (by omega), h0]
  norm_num

/-- C9 witness: the truncation theorem applied at n_rows = 2, n_cols = 9. -/
theorem beta_const_witness : betaCode 2 9 = some 0.7 :=
  beta_const_for_fan_in_ge_two 2 9 (by norm_num)

/-- C10: whenever the scale factor b and the post-fill norm are both
positive, the call succeeds and the result is the filled matrix multiplied
entrywise by the single positive scalar b / norm, so entry ratios and signs
of the random fill are preserved. -/
theorem rescale_is_positive_scalar_multiple (s : NguyenWidrowInitialization)
    (r c : ℕ) (fill : ℕ → ℕ → ℝ) (b : ℝ)
    (hb : betaCode r c = some b) (hbpos : 0 < b)
    (hn : 0 < normW (Mat.ofFun r c fill)) :
    s.Initialize r c fill =
      some (Mat.scale (b / normW (Mat.ofFun r c fill)) (Mat.ofFun r c fill)) ∧
    0 < b / normW (Mat.ofFun r c fill) ∧
    ∀ i j, (Mat.scale (b / normW (Mat.ofFun r c fill))
        (Mat.ofFun r c fill)).entry i j =
      (b / normW (Mat.ofFun r c fill)) * (Mat.ofFun r c fill).entry i j := by
  refine ⟨?_, div_pos hbpos hn, fun i j => rfl⟩
  unfold NguyenWidrowInitialization.Initialize RandomInitialization.Initialize
  rw [hb]
  rfl

theorem normW_e00_2_3 : normW (Mat.ofFun 2 3 e00) = 1 := by
  have h : frobSq (Mat.ofFun 2 3 e00) = 1 := by
    simp [frobSq, Mat.ofFun, e00, Finset.sum_range_succ]
  rw [normW, h, Real.sqrt_one]

/-- C10 witness: the scalar-multiple theorem applied at n_rows = 2,
n_cols = 3 with the fill e00 of norm 1, where the code computes b = 0.7. -/
theorem rescale_is_positive_scalar_multiple_witness :
    NguyenWidrowInitialization.createDefault.Initialize 2 3 e00 =
      some (Mat.scale ((0.7 : ℝ) / normW (Mat.ofFun 2 3 e00))
        (Mat.ofFun 2 3 e00)) ∧
    0 < (0.7 : ℝ) / normW (Mat.ofFun 2 3 e00) :=
  ⟨(rescale_is_positive_scalar_multiple
      NguyenWidrowInitialization.createDefault 2 3 e00 0.7
      (by unfold betaCode sizeTDiv; norm_num) (by norm_num)
      (by rw [normW_e00_2_3]; norm_num)).1,
    (rescale_is_positive_scalar_multiple
      NguyenWidrowInitialization.createDefault 2 3 e00 0.7
      (by unfold betaCode sizeTDiv; norm_num) (by norm_num)
      (by rw [normW_e00_2_3]; norm_num)).2.1⟩

end NguyenWidrow
